import Mathlib

/-!
Shallow embedding of `c3/libraries/envelopes.py`: a registry of closed-form
envelope (pulse-shape) functions over a time vector and a named parameter set.

Modelling conventions:
* Real-valued double precision arithmetic is modelled over `ℝ`; `np.exp`,
  `tf.exp`, `tf.sin`, `tf.math.erf`, `np.sqrt` become `Real.exp`, `Real.sin`,
  `erf` (defined below as the Gauss error function), `Real.sqrt`.
* A Python parameter dict is an association list `Params`.  A value is either
  a scalar `Quantity` (value/min/max/unit, with `get_value` returning the
  value), a vector-valued `Quantity` (as used by `fourier_sin`/`fourier_cos`),
  or a raw Python float (no `get_value` attribute, no `unit`).  `Quantity`
  itself lives outside this file's source (`c3.c3objs`); it is modelled from
  the spec: it stores value/min/max/unit and `get_value` returns the value.
* An envelope call returns `Option EnvResult × Params`: the first component is
  `none` when the Python call raises (missing key, or attribute access on a
  raw float); the second component is the state of the caller's dict after the
  call, since Python dict mutations persist even when an exception follows.
-/

open MeasureTheory

noncomputable section

namespace Envelopes

/-- The Gauss error function, `erf x = 2/√π · ∫ u in 0..x, exp (-u²)`,
the function computed by `tf.math.erf`. -/
def erf (x : ℝ) : ℝ := 2 / Real.sqrt Real.pi * ∫ u in (0:ℝ)..x, Real.exp (-u ^ 2)

/-- A value stored in a parameter dict. -/
inductive ParamVal where
  | qty (value lo hi : ℝ) (unit : String)
  | qtyVec (value : List ℝ)
  | raw (value : ℝ)

/-- A parameter dict: association list from names to values. -/
def Params := List (String × ParamVal)

/-- `params[k]`; `none` models a `KeyError`. -/
def lookupParam (p : Params) (k : String) : Option ParamVal :=
  match p with
  | [] => none
  | (k2, v) :: rest => if k2 = k then some v else lookupParam rest k

/-- `params[k] = v`: overwrite in place, or append a new key. -/
def setParam (p : Params) (k : String) (v : ParamVal) : Params :=
  match p with
  | [] => [(k, v)]
  | (k2, v2) :: rest => if k2 = k then (k, v) :: rest else (k2, v2) :: setParam rest k v

/-- `params[k].get_value()` for a scalar quantity; `none` models a `KeyError`
(missing key) or an `AttributeError` (`get_value` on a raw float, or a
vector-valued quantity used where a scalar is cast). -/
def qtyValue (p : Params) (k : String) : Option ℝ :=
  match lookupParam p k with
  | some (ParamVal.qty v _ _ _) => some v
  | _ => none

/-- `params[k].get_value()` for a vector-valued quantity. -/
def vecValue (p : Params) (k : String) : Option (List ℝ) :=
  match lookupParam p k with
  | some (ParamVal.qtyVec v) => some v
  | _ => none

/-- `params[k]` used directly as a plain float (as in `flattop_variant`). -/
def rawValue (p : Params) (k : String) : Option ℝ :=
  match lookupParam p k with
  | some (ParamVal.raw v) => some v
  | _ => none

/-- `params[k].unit` of a scalar quantity. -/
def qtyUnit (p : Params) (k : String) : Option String :=
  match lookupParam p k with
  | some (ParamVal.qty _ _ _ u) => some u
  | _ => none

/-- The result of an envelope call: a time-resolved vector, a broadcastable
scalar (`rect`), or — for `pwc` — the parameter table itself. -/
inductive EnvResult where
  | vec (v : List ℝ)
  | scalar (x : ℝ)
  | table (p : Params)

/-- The shared normalization constant of `gaussian_sigma`, `gaussian_der`,
`drag_sigma` and `drag_der`:
`sqrt(2*pi*sigma^2) * erf(t_final/(sqrt(8)*sigma)) - t_final * exp(-t_final^2/(8*sigma^2))`. -/
def gaussNorm (t_final sigma : ℝ) : ℝ :=
  Real.sqrt (2 * Real.pi * sigma ^ 2) * erf (t_final / (Real.sqrt 8 * sigma))
    - t_final * Real.exp (-t_final ^ 2 / (8 * sigma ^ 2))

/-- `no_drive(t, params)`: `tf.zeros_like(t)`. -/
def no_drive (t : List ℝ) (p : Params) : Option EnvResult × Params :=
  (some (EnvResult.vec (t.map fun _ => (0:ℝ))), p)

/-- `pwc(t, params)`: placeholder, returns `params` itself. -/
def pwc (_t : List ℝ) (p : Params) : Option EnvResult × Params :=
  (some (EnvResult.table p), p)

/-- `rect(t, params)`: the scalar `1.0`. -/
def rect (_t : List ℝ) (p : Params) : Option EnvResult × Params :=
  (some (EnvResult.scalar 1.0), p)

/-- `fourier_sin(t, params)`: `reduce_sum(amps * sin(freqs * t), 0)` after
reshaping `amps`, `freqs` to columns and `t` to a row; the length guard embeds
the backend's shape-compatibility requirement for the elementwise product. -/
def fourier_sin (t : List ℝ) (p : Params) : Option EnvResult × Params :=
  (match vecValue p "amps", vecValue p "freqs" with
   | some amps, some freqs =>
     if amps.length = freqs.length then
       some (EnvResult.vec (t.map fun x =>
         ((amps.zip freqs).map fun af => af.1 * Real.sin (af.2 * x)).sum))
     else none
   | _, _ => none, p)

/-- `fourier_cos(t, params)`: as `fourier_sin` with `cos`. -/
def fourier_cos (t : List ℝ) (p : Params) : Option EnvResult × Params :=
  (match vecValue p "amps", vecValue p "freqs" with
   | some amps, some freqs =>
     if amps.length = freqs.length then
       some (EnvResult.vec (t.map fun x =>
         ((amps.zip freqs).map fun af => af.1 * Real.cos (af.2 * x)).sum))
     else none
   | _, _ => none, p)

/-- `flattop_risefall(t, params)`:
`(1 + erf((t - t_up)/risefall))/2 * (1 + erf((-t + t_down)/risefall))/2`. -/
def flattop_risefall (t : List ℝ) (p : Params) : Option EnvResult × Params :=
  (match qtyValue p "t_up", qtyValue p "t_down", qtyValue p "risefall" with
   | some t_up, some t_down, some risefall =>
     some (EnvResult.vec (t.map fun x =>
       (1 + erf ((x - t_up) / risefall)) / 2 * (1 + erf ((-x + t_down) / risefall)) / 2))
   | _, _, _ => none, p)

/-- `flattop(t, params)`: sets `params['risefall'] = 1e-9` — a raw Python
float, not a `Quantity` — then delegates to `flattop_risefall`. -/
def flattop (t : List ℝ) (p : Params) : Option EnvResult × Params :=
  flattop_risefall t (setParam p "risefall" (ParamVal.raw 1e-9))

/-- `gaussian_sigma(t, params)`: `(gauss - offset) / norm` with
`gauss = exp(-(t - t_final/2)^2 / (2*sigma^2))` and
`offset = exp(-t_final^2/(8*sigma^2))`. -/
def gaussian_sigma (t : List ℝ) (p : Params) : Option EnvResult × Params :=
  (match qtyValue p "t_final", qtyValue p "sigma" with
   | some t_final, some sigma =>
     some (EnvResult.vec (t.map fun x =>
       (Real.exp (-(x - t_final / 2) ^ 2 / (2 * sigma ^ 2))
         - Real.exp (-t_final ^ 2 / (8 * sigma ^ 2))) / gaussNorm t_final sigma))
   | _, _ => none, p)

/-- `gaussian(t, params)`: injects
`params['sigma'] = Qty(value=t_final/4, min=t_final/8, max=t_final/2, unit=t_final.unit)`
and delegates to `gaussian_sigma`; fails before mutating when `t_final` is
absent or not a scalar quantity. -/
def gaussian (t : List ℝ) (p : Params) : Option EnvResult × Params :=
  match lookupParam p "t_final" with
  | some (ParamVal.qty v _ _ u) =>
      gaussian_sigma t (setParam p "sigma" (ParamVal.qty (v / 4) (v / 8) (v / 2) u))
  | _ => (none, p)

/-- `gaussian_nonorm(t, params)`: `exp(-(t - t_final/2)^2 / (2*sigma^2))`. -/
def gaussian_nonorm (t : List ℝ) (p : Params) : Option EnvResult × Params :=
  (match qtyValue p "t_final", qtyValue p "sigma" with
   | some t_final, some sigma =>
     some (EnvResult.vec (t.map fun x =>
       Real.exp (-(x - t_final / 2) ^ 2 / (2 * sigma ^ 2))))
   | _, _ => none, p)

/-- `gaussian_der_nonorm(t, params)`:
`exp(-(t - t_final/2)^2/(2*sigma^2)) * (t - t_final/2) / sigma^2`. -/
def gaussian_der_nonorm (t : List ℝ) (p : Params) : Option EnvResult × Params :=
  (match qtyValue p "t_final", qtyValue p "sigma" with
   | some t_final, some sigma =>
     some (EnvResult.vec (t.map fun x =>
       Real.exp (-(x - t_final / 2) ^ 2 / (2 * sigma ^ 2)) * (x - t_final / 2) / sigma ^ 2))
   | _, _ => none, p)

/-- `gaussian_der(t, params)`: the `gaussian_der_nonorm` vector divided by the
normalization constant (no offset subtracted). -/
def gaussian_der (t : List ℝ) (p : Params) : Option EnvResult × Params :=
  (match qtyValue p "t_final", qtyValue p "sigma" with
   | some t_final, some sigma =>
     some (EnvResult.vec ((t.map fun x =>
       Real.exp (-(x - t_final / 2) ^ 2 / (2 * sigma ^ 2)) * (x - t_final / 2) / sigma ^ 2).map
       fun y => y / gaussNorm t_final sigma))
   | _, _ => none, p)

/-- `drag_sigma(t, params)`: `(drag - offset)^2 / norm` with the same
`drag`/`offset`/`norm` as `gaussian_sigma`. -/
def drag_sigma (t : List ℝ) (p : Params) : Option EnvResult × Params :=
  (match qtyValue p "t_final", qtyValue p "sigma" with
   | some t_final, some sigma =>
     some (EnvResult.vec (t.map fun x =>
       (Real.exp (-(x - t_final / 2) ^ 2 / (2 * sigma ^ 2))
         - Real.exp (-t_final ^ 2 / (8 * sigma ^ 2))) ^ 2 / gaussNorm t_final sigma))
   | _, _ => none, p)

/-- `drag(t, params)`: injects `sigma` exactly as `gaussian` does and
delegates to `drag_sigma`. -/
def drag (t : List ℝ) (p : Params) : Option EnvResult × Params :=
  match lookupParam p "t_final" with
  | some (ParamVal.qty v _ _ u) =>
      drag_sigma t (setParam p "sigma" (ParamVal.qty (v / 4) (v / 8) (v / 2) u))
  | _ => (none, p)

/-- `drag_der(t, params)`:
`-2 * (gauss - offset) * gauss * (t - t_final/2) / sigma^2 / norm`. -/
def drag_der (t : List ℝ) (p : Params) : Option EnvResult × Params :=
  (match qtyValue p "t_final", qtyValue p "sigma" with
   | some t_final, some sigma =>
     some (EnvResult.vec (t.map fun x =>
       -2 * (Real.exp (-(x - t_final / 2) ^ 2 / (2 * sigma ^ 2))
              - Real.exp (-t_final ^ 2 / (8 * sigma ^ 2)))
         * Real.exp (-(x - t_final / 2) ^ 2 / (2 * sigma ^ 2))
         * (x - t_final / 2) / sigma ^ 2 / gaussNorm t_final sigma))
   | _, _ => none, p)

/-- `flattop_variant(t, params)`: piecewise Gaussian rise / flat / Gaussian
fall, parameters read as plain floats, `ramp` clamped to `(t_down - t_up)/2`,
`sigma = sqrt(2)*ramp*0.2`. -/
def flattop_variant (t : List ℝ) (p : Params) : Option EnvResult × Params :=
  (match rawValue p "t_up", rawValue p "t_down", rawValue p "ramp" with
   | some t_up, some t_down, some ramp0 =>
     let ramp := if ramp0 > (t_down - t_up) / 2 then (t_down - t_up) / 2 else ramp0
     let sigma := Real.sqrt 2 * ramp * 0.2
     some (EnvResult.vec (t.map fun e =>
       if t_up ≤ e ∧ e ≤ t_up + ramp then
         Real.exp (-(e - t_up - ramp) ^ 2 / (2 * sigma ^ 2))
       else if t_up + ramp < e ∧ e < t_down - ramp then 1
       else if t_down ≥ e ∧ e ≥ t_down - ramp then
         Real.exp (-(e - t_down + ramp) ^ 2 / (2 * sigma ^ 2))
       else 0))
   | _, _, _ => none, p)

/-- The registry built by `env_reg_deco`, in definition order, each function
keyed by its own identifier.  All sixteen names are distinct, so a plain
association list carries the dict's (last-registration-wins) semantics. -/
def envelopes : List (String × (List ℝ → Params → Option EnvResult × Params)) :=
  [("no_drive", no_drive), ("pwc", pwc), ("fourier_sin", fourier_sin),
   ("fourier_cos", fourier_cos), ("rect", rect), ("flattop_risefall", flattop_risefall),
   ("flattop", flattop), ("gaussian_sigma", gaussian_sigma), ("gaussian", gaussian),
   ("gaussian_nonorm", gaussian_nonorm), ("gaussian_der_nonorm", gaussian_der_nonorm),
   ("gaussian_der", gaussian_der), ("drag_sigma", drag_sigma), ("drag", drag),
   ("drag_der", drag_der), ("flattop_variant", flattop_variant)]

/-- `envelopes[name]`; `none` models the `NameNotFound` (`KeyError`) condition. -/
def lookupEnv (name : String) : Option (List ℝ → Params → Option EnvResult × Params) :=
  match envelopes.find? (fun e => e.1 == name) with
  | some e => some e.2
  | none => none

theorem lookupParam_setParam_self (p : Params) (k : String) (v : ParamVal) :
    lookupParam (setParam p k v) k = some v := by
  induction p with
  | nil => simp [setParam, lookupParam]
  | cons hd tl ih =>
    obtain ⟨k2, v2⟩ := hd
    by_cases h : k2 = k
    · simp [setParam, lookupParam, h]
    · simp [setParam, lookupParam, h, ih]

theorem lookupParam_setParam_ne (p : Params) (k k2 : String) (v : ParamVal)
    (h : k2 ≠ k) : lookupParam (setParam p k v) k2 = lookupParam p k2 := by
  have hk : ¬ k = k2 := fun hh => h hh.symm
  induction p with
  | nil => simp [setParam, lookupParam, hk]
  | cons hd tl ih =>
    obtain ⟨k3, v3⟩ := hd
    by_cases h3 : k3 = k
    · subst h3
      simp [setParam, lookupParam, hk]
    · simp [setParam, lookupParam, h3, ih]

/-- C9: `pwc(t, params)` returns the parameter table itself, never a
time-resolved vector, and leaves the parameter set unchanged. -/
theorem pwc_returns_params (t : List ℝ) (p : Params) :
    (pwc t p).1 = some (EnvResult.table p) ∧
    (∀ v : List ℝ, (pwc t p).1 ≠ some (EnvResult.vec v)) ∧
    (pwc t p).2 = p :=
  ⟨rfl, fun v h => by simp [pwc] at h, rfl⟩

theorem pwc_returns_params_witness :
    (pwc [0, 1] [("amp", ParamVal.raw 2)]).1
        = some (EnvResult.table [("amp", ParamVal.raw 2)]) ∧
    (pwc [0, 1] [("amp", ParamVal.raw 2)]).1 ≠ some (EnvResult.vec []) :=
  ⟨(pwc_returns_params [0, 1] [("amp", ParamVal.raw 2)]).1,
   (pwc_returns_params [0, 1] [("amp", ParamVal.raw 2)]).2.1 []⟩

/-- C1: when `t_final` is a scalar quantity, `gaussian` agrees with
`gaussian_sigma` on the parameter set extended by
`sigma = Qty(t_final/4, min=t_final/8, max=t_final/2, unit)`, and `drag`
agrees likewise with `drag_sigma`. -/
theorem gaussian_drag_delegate (t : List ℝ) (p : Params) (v lo hi : ℝ) (u : String)
    (h : lookupParam p "t_final" = some (ParamVal.qty v lo hi u)) :
    gaussian t p
      = gaussian_sigma t (setParam p "sigma" (ParamVal.qty (v / 4) (v / 8) (v / 2) u)) ∧
    drag t p
      = drag_sigma t (setParam p "sigma" (ParamVal.qty (v / 4) (v / 8) (v / 2) u)) := by
  constructor <;> simp [gaussian, drag, h]

theorem gaussian_drag_delegate_witness :
    lookupParam [("t_final", ParamVal.qty 8 0 10 "s")] "t_final"
        = some (ParamVal.qty 8 0 10 "s") ∧
    gaussian [1] [("t_final", ParamVal.qty 8 0 10 "s")]
      = gaussian_sigma [1] (setParam [("t_final", ParamVal.qty 8 0 10 "s")] "sigma"
          (ParamVal.qty (8 / 4) (8 / 8) (8 / 2) "s")) :=
  ⟨rfl, (gaussian_drag_delegate [1] [("t_final", ParamVal.qty 8 0 10 "s")] 8 0 10 "s" rfl).1⟩

/-- C2 (code bug): `flattop` always fails.  It injects `risefall` as the raw
float `1e-9`, and the delegate `flattop_risefall` then calls `get_value()` on
that float, which no float provides. -/
theorem flattop_always_fails (t : List ℝ) (p : Params) :
    (flattop t p).1 = none ∧
    (flattop t p).2 = setParam p "risefall" (ParamVal.raw 1e-9) := by
  have h : qtyValue (setParam p "risefall" (ParamVal.raw 1e-9)) "risefall" = none := by
    simp [qtyValue, lookupParam_setParam_self]
  constructor
  · simp only [flattop, flattop_risefall]
    rcases h2 : qtyValue (setParam p "risefall" (ParamVal.raw 1e-9)) "t_up" with _ | a <;>
      rcases h3 : qtyValue (setParam p "risefall" (ParamVal.raw 1e-9)) "t_down" with _ | b <;>
        simp [h, h2, h3]
  · rfl

/-- C5: `gaussian_der` is exactly the `gaussian_der_nonorm` vector divided
pointwise by the normalization constant `gaussNorm t_final sigma`; no offset
is subtracted before dividing. -/
theorem gaussian_der_is_scaled_nonorm (t : List ℝ) (p : Params) (t_final sigma : ℝ)
    (htf : qtyValue p "t_final" = some t_final)
    (hs : qtyValue p "sigma" = some sigma) :
    ∃ v : List ℝ, (gaussian_der_nonorm t p).1 = some (EnvResult.vec v) ∧
      (gaussian_der t p).1
        = some (EnvResult.vec (v.map fun y => y / gaussNorm t_final sigma)) := by
  refine ⟨t.map fun x =>
    Real.exp (-(x - t_final / 2) ^ 2 / (2 * sigma ^ 2)) * (x - t_final / 2) / sigma ^ 2,
    ?_, ?_⟩ <;> simp [gaussian_der_nonorm, gaussian_der, htf, hs]

theorem gaussian_der_is_scaled_nonorm_witness :
    qtyValue [("t_final", ParamVal.qty 4 0 8 "s"), ("sigma", ParamVal.qty 1 0 2 "s")]
        "t_final" = some 4 ∧
    qtyValue [("t_final", ParamVal.qty 4 0 8 "s"), ("sigma", ParamVal.qty 1 0 2 "s")]
        "sigma" = some 1 ∧
    ∃ v : List ℝ,
      (gaussian_der_nonorm [0, 2]
          [("t_final", ParamVal.qty 4 0 8 "s"), ("sigma", ParamVal.qty 1 0 2 "s")]).1
        = some (EnvResult.vec v) ∧
      (gaussian_der [0, 2]
          [("t_final", ParamVal.qty 4 0 8 "s"), ("sigma", ParamVal.qty 1 0 2 "s")]).1
        = some (EnvResult.vec (v.map fun y => y / gaussNorm 4 1)) :=
  ⟨rfl, rfl, gaussian_der_is_scaled_nonorm [0, 2]
    [("t_final", ParamVal.qty 4 0 8 "s"), ("sigma", ParamVal.qty 1 0 2 "s")] 4 1 rfl rfl⟩

/-- C3 counterexample: with `amps = [1]` and `freqs = [0]`, `fourier_sin` over
`t = [0, pi/2, pi]` yields `[0, 0, 0]` (the zero-frequency sine vanishes
everywhere), not approximately `[0, 1, 0]`. -/
theorem fourier_sin_zero_freq_counterexample :
    (fourier_sin [0, Real.pi / 2, Real.pi]
        [("amps", ParamVal.qtyVec [1]), ("freqs", ParamVal.qtyVec [0])]).1
      = some (EnvResult.vec [0, 0, 0]) ∧ ([0, 0, 0] : List ℝ) ≠ [0, 1, 0] := by
  constructor
  · simp [fourier_sin, vecValue, lookupParam]
  · simp

/-- C3 (amended): `fourier_sin` computes, for each time point, the sum over
components `i` of `amps[i] * sin(freqs[i] * t)`, returning a vector of length
`len(t)`; with `amps = [1]` and `freqs = [1]`, evaluating over
`t = [0, pi/2, pi]` yields exactly `[0, 1, 0]`. -/
theorem fourier_sin_formula (t : List ℝ) (p : Params) (amps freqs : List ℝ)
    (ha : vecValue p "amps" = some amps) (hf : vecValue p "freqs" = some freqs)
    (hlen : amps.length = freqs.length) :
    (fourier_sin t p).1 = some (EnvResult.vec (t.map fun x =>
        ((amps.zip freqs).map fun af => af.1 * Real.sin (af.2 * x)).sum)) ∧
    (t.map fun x =>
        ((amps.zip freqs).map fun af => af.1 * Real.sin (af.2 * x)).sum).length
      = t.length ∧
    (fourier_sin [0, Real.pi / 2, Real.pi]
        [("amps", ParamVal.qtyVec [1]), ("freqs", ParamVal.qtyVec [1])]).1
      = some (EnvResult.vec [0, 1, 0]) := by
  refine ⟨by simp [fourier_sin, ha, hf, hlen], List.length_map _ _, ?_⟩
  simp [fourier_sin, vecValue, lookupParam, Real.sin_pi_div_two]

theorem fourier_sin_formula_witness :
    vecValue [("amps", ParamVal.qtyVec [1]), ("freqs", ParamVal.qtyVec [1])] "amps"
        = some [1] ∧
    vecValue [("amps", ParamVal.qtyVec [1]), ("freqs", ParamVal.qtyVec [1])] "freqs"
        = some [1] ∧
    (fourier_sin [0, Real.pi / 2, Real.pi]
        [("amps", ParamVal.qtyVec [1]), ("freqs", ParamVal.qtyVec [1])]).1
      = some (EnvResult.vec [0, 1, 0]) :=
  ⟨rfl, rfl,
   (fourier_sin_formula [0] [("amps", ParamVal.qtyVec [1]), ("freqs", ParamVal.qtyVec [1])]
      [1] [1] rfl rfl rfl).2.2⟩

/-- C4: for `t_final > 0` and `sigma > 0`, `gaussian_sigma` evaluated at the
time points `0` and `t_final` yields exactly `0` in the real-number model:
the Gaussian term equals the subtracted offset at both boundaries. -/
theorem gaussian_sigma_boundary (p : Params) (t_final sigma : ℝ)
    (htf : qtyValue p "t_final" = some t_final)
    (hs : qtyValue p "sigma" = some sigma)
    (h1 : 0 < t_final) (h2 : 0 < sigma) :
    (gaussian_sigma [0, t_final] p).1 = some (EnvResult.vec [0, 0]) := by
  have key : ∀ x : ℝ,
      -(x - t_final / 2) ^ 2 / (2 * sigma ^ 2) = -t_final ^ 2 / (8 * sigma ^ 2) →
      (Real.exp (-(x - t_final / 2) ^ 2 / (2 * sigma ^ 2))
        - Real.exp (-t_final ^ 2 / (8 * sigma ^ 2))) / gaussNorm t_final sigma = 0 := by
    intro x hx
    rw [hx, sub_self, zero_div]
  have k0 := key 0 (by ring)
  have k1 := key t_final (by ring)
  simp only [gaussian_sigma, htf, hs, List.map_cons, List.map_nil, k0, k1]

theorem gaussian_sigma_boundary_witness :
    qtyValue [("t_final", ParamVal.qty 1 0 2 "s"), ("sigma", ParamVal.qty 1 0 2 "s")]
        "t_final" = some 1 ∧
    qtyValue [("t_final", ParamVal.qty 1 0 2 "s"), ("sigma", ParamVal.qty 1 0 2 "s")]
        "sigma" = some 1 ∧
    (0 : ℝ) < 1 ∧
    (gaussian_sigma [0, 1]
        [("t_final", ParamVal.qty 1 0 2 "s"), ("sigma", ParamVal.qty 1 0 2 "s")]).1
      = some (EnvResult.vec [0, 0]) :=
  ⟨rfl, rfl, by norm_num,
   gaussian_sigma_boundary _ 1 1 rfl rfl (by norm_num) (by norm_num)⟩

/-- C6: with plain-float parameters `t_up < t_down` and `ramp = 0`,
`flattop_variant` returns a vector mapped elementwise from `t` by a function
that is exactly `1` strictly between `t_up` and `t_down` and exactly `0`
strictly outside `[t_up, t_down]`. -/
theorem flattop_variant_ramp_zero (t : List ℝ) (p : Params) (t_up t_down : ℝ)
    (hu : rawValue p "t_up" = some t_up) (hd : rawValue p "t_down" = some t_down)
    (hr : rawValue p "ramp" = some 0) (hud : t_up < t_down) :
    ∃ f : ℝ → ℝ, (flattop_variant t p).1 = some (EnvResult.vec (t.map f)) ∧
      (∀ x : ℝ, t_up < x → x < t_down → f x = 1) ∧
      (∀ x : ℝ, x < t_up ∨ t_down < x → f x = 0) := by
  have hclamp : ¬ ((0:ℝ) > (t_down - t_up) / 2) := by push_neg; linarith
  refine ⟨fun e =>
    if t_up ≤ e ∧ e ≤ t_up + 0 then
      Real.exp (-(e - t_up - 0) ^ 2 / (2 * (Real.sqrt 2 * 0 * 0.2) ^ 2))
    else if t_up + 0 < e ∧ e < t_down - 0 then 1
    else if t_down ≥ e ∧ e ≥ t_down - 0 then
      Real.exp (-(e - t_down + 0) ^ 2 / (2 * (Real.sqrt 2 * 0 * 0.2) ^ 2))
    else 0, ?_, ?_, ?_⟩
  · simp only [flattop_variant, hu, hd, hr]
    simp only [hclamp, if_false]
  · intro x hx1 hx2
    have c1 : ¬ (t_up ≤ x ∧ x ≤ t_up + 0) := by
      push_neg
      intro _
      linarith
    have c2 : t_up + 0 < x ∧ x < t_down - 0 := by
      constructor <;> linarith
    simp only [if_neg c1, if_pos c2]
  · intro x hx
    rcases hx with hx | hx
    · have c1 : ¬ (t_up ≤ x ∧ x ≤ t_up + 0) := by
        push_neg
        intro h
        linarith
      have c2 : ¬ (t_up + 0 < x ∧ x < t_down - 0) := by
        push_neg
        intro h
        linarith
      have c3 : ¬ (t_down ≥ x ∧ x ≥ t_down - 0) := by
        push_neg
        intro h
        linarith
      simp only [if_neg c1, if_neg c2, if_neg c3]
    · have c1 : ¬ (t_up ≤ x ∧ x ≤ t_up + 0) := by
        push_neg
        intro _
        linarith
      have c2 : ¬ (t_up + 0 < x ∧ x < t_down - 0) := by
        push_neg
        intro _
        linarith
      have c3 : ¬ (t_down ≥ x ∧ x ≥ t_down - 0) := by
        push_neg
        intro h
        linarith
      simp only [if_neg c1, if_neg c2, if_neg c3]

theorem flattop_variant_ramp_zero_witness :
    rawValue [("t_up", ParamVal.raw 2), ("t_down", ParamVal.raw 4), ("ramp", ParamVal.raw 0)]
        "t_up" = some 2 ∧
    rawValue [("t_up", ParamVal.raw 2), ("t_down", ParamVal.raw 4), ("ramp", ParamVal.raw 0)]
        "t_down" = some 4 ∧
    rawValue [("t_up", ParamVal.raw 2), ("t_down", ParamVal.raw 4), ("ramp", ParamVal.raw 0)]
        "ramp" = some 0 ∧
    (2 : ℝ) < 4 ∧
    (∃ f : ℝ → ℝ,
      (flattop_variant [1, 3, 5]
          [("t_up", ParamVal.raw 2), ("t_down", ParamVal.raw 4), ("ramp", ParamVal.raw 0)]).1
        = some (EnvResult.vec ([1, 3, 5].map f)) ∧
      (∀ x : ℝ, 2 < x → x < 4 → f x = 1) ∧
      (∀ x : ℝ, x < 2 ∨ 4 < x → f x = 0)) :=
  ⟨rfl, rfl, rfl, by norm_num,
   flattop_variant_ramp_zero [1, 3, 5]
     [("t_up", ParamVal.raw 2), ("t_down", ParamVal.raw 4), ("ramp", ParamVal.raw 0)]
     2 4 rfl rfl rfl (by norm_num)⟩

/-- C7: every envelope function other than `flattop`, `gaussian`, `drag`
leaves the caller's parameter set unchanged; `flattop` changes (or adds) only
the `risefall` entry, and `gaussian` and `drag` change (or add) only the
`sigma` entry, every other entry being unchanged after the call. -/
theorem params_mutation_discipline :
    (∀ (t : List ℝ) (p : Params), (no_drive t p).2 = p) ∧
    (∀ (t : List ℝ) (p : Params), (pwc t p).2 = p) ∧
    (∀ (t : List ℝ) (p : Params), (rect t p).2 = p) ∧
    (∀ (t : List ℝ) (p : Params), (fourier_sin t p).2 = p) ∧
    (∀ (t : List ℝ) (p : Params), (fourier_cos t p).2 = p) ∧
    (∀ (t : List ℝ) (p : Params), (flattop_risefall t p).2 = p) ∧
    (∀ (t : List ℝ) (p : Params), (gaussian_sigma t p).2 = p) ∧
    (∀ (t : List ℝ) (p : Params), (gaussian_nonorm t p).2 = p) ∧
    (∀ (t : List ℝ) (p : Params), (gaussian_der_nonorm t p).2 = p) ∧
    (∀ (t : List ℝ) (p : Params), (gaussian_der t p).2 = p) ∧
    (∀ (t : List ℝ) (p : Params), (drag_sigma t p).2 = p) ∧
    (∀ (t : List ℝ) (p : Params), (drag_der t p).2 = p) ∧
    (∀ (t : List ℝ) (p : Params), (flattop_variant t p).2 = p) ∧
    (∀ (t : List ℝ) (p : Params) (k : String), k ≠ "risefall" →
        lookupParam (flattop t p).2 k = lookupParam p k) ∧
    (∀ (t : List ℝ) (p : Params) (k : String), k ≠ "sigma" →
        lookupParam (gaussian t p).2 k = lookupParam p k) ∧
    (∀ (t : List ℝ) (p : Params) (k : String), k ≠ "sigma" →
        lookupParam (drag t p).2 k = lookupParam p k) := by
  refine ⟨fun t p => rfl, fun t p => rfl, fun t p => rfl, fun t p => rfl, fun t p => rfl,
    fun t p => rfl, fun t p => rfl, fun t p => rfl, fun t p => rfl, fun t p => rfl,
    fun t p => rfl, fun t p => rfl, fun t p => rfl, ?_, ?_, ?_⟩
  · intro t p k h
    exact lookupParam_setParam_ne p "risefall" k (ParamVal.raw 1e-9) h
  · intro t p k h
    rcases hf : lookupParam p "t_final" with _ | pv
    · simp [gaussian, hf]
    · rcases pv with ⟨v, lo, hi, u⟩ | vv | rv
      · have h2 : (gaussian t p).2
            = setParam p "sigma" (ParamVal.qty (v / 4) (v / 8) (v / 2) u) := by
          simp [gaussian, hf, gaussian_sigma]
        rw [h2]
        exact lookupParam_setParam_ne p "sigma" k _ h
      · simp [gaussian, hf]
      · simp [gaussian, hf]
  · intro t p k h
    rcases hf : lookupParam p "t_final" with _ | pv
    · simp [drag, hf]
    · rcases pv with ⟨v, lo, hi, u⟩ | vv | rv
      · have h2 : (drag t p).2
            = setParam p "sigma" (ParamVal.qty (v / 4) (v / 8) (v / 2) u) := by
          simp [drag, hf, drag_sigma]
        rw [h2]
        exact lookupParam_setParam_ne p "sigma" k _ h
      · simp [drag, hf]
      · simp [drag, hf]

theorem params_mutation_discipline_witness :
    (rect [0] [("amp", ParamVal.raw 1)]).2 = [("amp", ParamVal.raw 1)] ∧
    lookupParam (flattop [0] [("t_up", ParamVal.raw 1)]).2 "t_up"
      = lookupParam [("t_up", ParamVal.raw 1)] "t_up" ∧
    lookupParam (gaussian [0] [("t_final", ParamVal.qty 1 0 2 "s")]).2 "t_final"
      = lookupParam [("t_final", ParamVal.qty 1 0 2 "s")] "t_final" ∧
    lookupParam (drag [0] [("t_final", ParamVal.qty 1 0 2 "s")]).2 "t_final"
      = lookupParam [("t_final", ParamVal.qty 1 0 2 "s")] "t_final" :=
  ⟨params_mutation_discipline.2.2.1 [0] [("amp", ParamVal.raw 1)],
   params_mutation_discipline.2.2.2.2.2.2.2.2.2.2.2.2.2.1 [0]
     [("t_up", ParamVal.raw 1)] "t_up" (by decide),
   params_mutation_discipline.2.2.2.2.2.2.2.2.2.2.2.2.2.2.1 [0]
     [("t_final", ParamVal.qty 1 0 2 "s")] "t_final" (by decide),
   params_mutation_discipline.2.2.2.2.2.2.2.2.2.2.2.2.2.2.2 [0]
     [("t_final", ParamVal.qty 1 0 2 "s")] "t_final" (by decide)⟩

/-- C8: looking up any name absent from the registry yields the
`NameNotFound` condition (`none`), and each of the sixteen defined envelope
functions is registered under, and returned for, exactly its own
identifier. -/
theorem registry_lookup (name : String) (h : name ∉ envelopes.map Prod.fst) :
    lookupEnv name = none ∧
    lookupEnv "no_drive" = some no_drive ∧
    lookupEnv "pwc" = some pwc ∧
    lookupEnv "fourier_sin" = some fourier_sin ∧
    lookupEnv "fourier_cos" = some fourier_cos ∧
    lookupEnv "rect" = some rect ∧
    lookupEnv "flattop_risefall" = some flattop_risefall ∧
    lookupEnv "flattop" = some flattop ∧
    lookupEnv "gaussian_sigma" = some gaussian_sigma ∧
    lookupEnv "gaussian" = some gaussian ∧
    lookupEnv "gaussian_nonorm" = some gaussian_nonorm ∧
    lookupEnv "gaussian_der_nonorm" = some gaussian_der_nonorm ∧
    lookupEnv "gaussian_der" = some gaussian_der ∧
    lookupEnv "drag_sigma" = some drag_sigma ∧
    lookupEnv "drag" = some drag ∧
    lookupEnv "drag_der" = some drag_der ∧
    lookupEnv "flattop_variant" = some flattop_variant := by
  refine ⟨?_, rfl, rfl, rfl, rfl, rfl, rfl, rfl, rfl, rfl, rfl, rfl, rfl, rfl, rfl, rfl, rfl⟩
  unfold lookupEnv
  have hn : envelopes.find? (fun e => e.1 == name) = none := by
    rw [List.find?_eq_none]
    intro x hx
    simp only [beq_iff_eq]
    intro heq
    exact h (List.mem_map.mpr ⟨x, hx, heq⟩)
  rw [hn]

theorem registry_lookup_witness :
    "not_a_shape" ∉ envelopes.map Prod.fst ∧ lookupEnv "not_a_shape" = none :=
  ⟨by decide, (registry_lookup "not_a_shape" (by decide)).1⟩

theorem integral_exp_sq_gt (x : ℝ) (hx : 0 < x) :
    x * Real.exp (-x ^ 2) < ∫ u in (0:ℝ)..x, Real.exp (-u ^ 2) := by
  have hc1 : Continuous fun u : ℝ => Real.exp (-u ^ 2) := by continuity
  have hc2 : Continuous fun u : ℝ => Real.exp (-u ^ 2) - Real.exp (-x ^ 2) := by continuity
  have hpos : 0 < ∫ u in (0:ℝ)..x, (Real.exp (-u ^ 2) - Real.exp (-x ^ 2)) := by
    apply intervalIntegral.intervalIntegral_pos_of_pos_on (hc2.intervalIntegrable 0 x) _ hx
    intro u hu
    have h1 : u ^ 2 < x ^ 2 := by nlinarith [hu.1, hu.2]
    have h2 := Real.exp_lt_exp.mpr (neg_lt_neg h1)
    linarith
  have hsplit : ∫ u in (0:ℝ)..x, (Real.exp (-u ^ 2) - Real.exp (-x ^ 2))
      = (∫ u in (0:ℝ)..x, Real.exp (-u ^ 2)) - x * Real.exp (-x ^ 2) := by
    rw [intervalIntegral.integral_sub (hc1.intervalIntegrable 0 x) intervalIntegrable_const,
      intervalIntegral.integral_const]
    simp
  rw [hsplit] at hpos
  linarith

theorem sqrt_eight : Real.sqrt 8 = 2 * Real.sqrt 2 := by
  rw [show (8:ℝ) = 2 ^ 2 * 2 by norm_num, Real.sqrt_mul (by positivity),
    Real.sqrt_sq (by norm_num)]

theorem gaussNorm_eq (t_final sigma : ℝ) (h2 : 0 < sigma) :
    gaussNorm t_final sigma = 2 * Real.sqrt 2 * sigma *
      ((∫ u in (0:ℝ)..(t_final / (Real.sqrt 8 * sigma)), Real.exp (-u ^ 2))
        - t_final / (Real.sqrt 8 * sigma)
          * Real.exp (-(t_final / (Real.sqrt 8 * sigma)) ^ 2)) := by
  have hπ : Real.sqrt Real.pi ≠ 0 := ne_of_gt (Real.sqrt_pos.mpr Real.pi_pos)
  have hσ : sigma ≠ 0 := ne_of_gt h2
  have h2ne : Real.sqrt 2 ≠ 0 := by positivity
  have ha : Real.sqrt (2 * Real.pi * sigma ^ 2)
      = Real.sqrt 2 * Real.sqrt Real.pi * sigma := by
    rw [Real.sqrt_mul (by positivity), Real.sqrt_sq h2.le, Real.sqrt_mul (by norm_num)]
  have hd : -t_final ^ 2 / (8 * sigma ^ 2)
      = -(t_final / (Real.sqrt 8 * sigma)) ^ 2 := by
    rw [div_pow, mul_pow, Real.sq_sqrt (by norm_num : (0:ℝ) ≤ 8)]
    ring
  unfold gaussNorm erf
  rw [ha, hd, sqrt_eight]
  field_simp
  ring

theorem gaussNorm_pos (t_final sigma : ℝ) (h1 : 0 < t_final) (h2 : 0 < sigma) :
    0 < gaussNorm t_final sigma := by
  have hs8 : (0:ℝ) < Real.sqrt 8 := Real.sqrt_pos.mpr (by norm_num)
  have hx : 0 < t_final / (Real.sqrt 8 * sigma) := div_pos h1 (mul_pos hs8 h2)
  have hkey := integral_exp_sq_gt _ hx
  rw [gaussNorm_eq t_final sigma h2]
  have h2s : (0:ℝ) < 2 * Real.sqrt 2 * sigma := by positivity
  exact mul_pos h2s (sub_pos.mpr hkey)

/-- C10: for `t_final > 0` and `sigma > 0`, the normalization constant of
`drag_sigma` is strictly positive, and every entry of the `drag_sigma` result
vector — a squared difference divided by that constant — is nonnegative. -/
theorem drag_sigma_nonneg (t : List ℝ) (p : Params) (t_final sigma : ℝ)
    (htf : qtyValue p "t_final" = some t_final)
    (hs : qtyValue p "sigma" = some sigma)
    (h1 : 0 < t_final) (h2 : 0 < sigma) :
    0 < gaussNorm t_final sigma ∧
    ∃ v : List ℝ, (drag_sigma t p).1 = some (EnvResult.vec v) ∧ ∀ y ∈ v, 0 ≤ y := by
  have hnorm : 0 < gaussNorm t_final sigma := gaussNorm_pos t_final sigma h1 h2
  refine ⟨hnorm, t.map fun x =>
      (Real.exp (-(x - t_final / 2) ^ 2 / (2 * sigma ^ 2))
        - Real.exp (-t_final ^ 2 / (8 * sigma ^ 2))) ^ 2 / gaussNorm t_final sigma,
    ?_, ?_⟩
  · simp [drag_sigma, htf, hs]
  · intro y hy
    rw [List.mem_map] at hy
    obtain ⟨x, _, hx⟩ := hy
    rw [← hx]
    exact div_nonneg (sq_nonneg _) hnorm.le

theorem drag_sigma_nonneg_witness :
    qtyValue [("t_final", ParamVal.qty 1 0 2 "s"), ("sigma", ParamVal.qty 1 0 2 "s")]
        "t_final" = some 1 ∧
    qtyValue [("t_final", ParamVal.qty 1 0 2 "s"), ("sigma", ParamVal.qty 1 0 2 "s")]
        "sigma" = some 1 ∧
    (0 : ℝ) < 1 ∧
    (0 < gaussNorm 1 1 ∧
     ∃ v : List ℝ,
       (drag_sigma [0, 1]
           [("t_final", ParamVal.qty 1 0 2 "s"), ("sigma", ParamVal.qty 1 0 2 "s")]).1
         = some (EnvResult.vec v) ∧ ∀ y ∈ v, 0 ≤ y) :=
  ⟨rfl, rfl, by norm_num,
   drag_sigma_nonneg [0, 1]
     [("t_final", ParamVal.qty 1 0 2 "s"), ("sigma", ParamVal.qty 1 0 2 "s")]
     1 1 rfl rfl (by norm_num) (by norm_num)⟩

end Envelopes

end
